import Mathlib

/-!
Verification of the telemetry filter-matching engine of
opentelemetry-collector-contrib: the `filtermatcher` package
(`PropertiesMatcher`, `NewMatcher`, `Match`) and the OTTL `IsMatch`
function, over a shallow embedding in Lean 4.

The `filterset` package, the `AttributesMatcher`, the `filterconfig`
data structures and the Go standard regexp library are external to the
provided sources; they are modelled from the specification, as marked in
the doc comments below.  The functions `NewMatcher`, `Match` and
`IsMatch` themselves are translated directly from the Go source.
-/

namespace FilterMatcher

/-- Modelled from the spec: a miniature regular-expression abstract
syntax, standing in for Go's compiled `regexp` patterns.  It covers the
constructs the specification exercises (literal characters, the `.`
wildcard, concatenation, alternation, and the `^` / `$` anchors); richer
constructs are treated as unsupported by the model's pattern compiler. -/
inductive Regex where
  | emptyR : Regex
  | ch (c : Char) : Regex
  | anyCh : Regex
  | cat (r1 r2 : Regex) : Regex
  | alt (r1 r2 : Regex) : Regex
  | bol : Regex
  | eol : Regex
deriving DecidableEq, Repr

/-- Modelled from the spec: the declarative meaning of "the pattern
matches the span of `s` from position `i` to position `j`".  The `^`
anchor matches the empty span only at position `0`; the `$` anchor only
at the end of the string.  Positions are constrained to lie inside the
string. -/
inductive MatchSpan : Regex → List Char → Nat → Nat → Prop where
  | emptyR {s : List Char} {i : Nat} (h : i ≤ s.length) :
      MatchSpan .emptyR s i i
  | ch {s : List Char} {i : Nat} {c : Char} (h : s.get? i = some c) :
      MatchSpan (.ch c) s i (i + 1)
  | anyCh {s : List Char} {i : Nat} {c : Char} (h : s.get? i = some c) :
      MatchSpan .anyCh s i (i + 1)
  | cat {r1 r2 : Regex} {s : List Char} {i j k : Nat}
      (h1 : MatchSpan r1 s i j) (h2 : MatchSpan r2 s j k) :
      MatchSpan (.cat r1 r2) s i k
  | altL {r1 r2 : Regex} {s : List Char} {i j : Nat}
      (h : MatchSpan r1 s i j) : MatchSpan (.alt r1 r2) s i j
  | altR {r1 r2 : Regex} {s : List Char} {i j : Nat}
      (h : MatchSpan r2 s i j) : MatchSpan (.alt r1 r2) s i j
  | bol {s : List Char} : MatchSpan .bol s 0 0
  | eol {s : List Char} : MatchSpan .eol s s.length s.length

/-- The operational matcher: all end positions of matches of `r` that
start at position `i` of `s`. -/
def matchEnds (r : Regex) (s : List Char) (i : Nat) : List Nat :=
  match r with
  | .emptyR => if i ≤ s.length then [i] else []
  | .ch c =>
    match s.get? i with
    | some c' => if c' = c then [i + 1] else []
    | none => []
  | .anyCh =>
    match s.get? i with
    | some _ => [i + 1]
    | none => []
  | .cat r1 r2 => (matchEnds r1 s i).flatMap (fun j => matchEnds r2 s j)
  | .alt r1 r2 => matchEnds r1 s i ++ matchEnds r2 s i
  | .bol => if i = 0 then [0] else []
  | .eol => if i = s.length then [i] else []

/-- The search used by Go's `Regexp.MatchString` and by the REGEXP
filter sets: true iff a match of `r` starts at some position of `s`
(unanchored substring search). -/
def regexSearch (r : Regex) (s : List Char) : Bool :=
  (List.range (s.length + 1)).any (fun i => !(matchEnds r s i).isEmpty)

/-- The declarative counterpart of `regexSearch`: the pattern finds a
match somewhere within the string. -/
def FindsMatchIn (r : Regex) (s : List Char) : Prop :=
  ∃ i j, MatchSpan r s i j

theorem matchEnds_sound {r : Regex} {s : List Char} {i j : Nat}
    (h : j ∈ matchEnds r s i) : MatchSpan r s i j := by
  induction r generalizing i j with
  | emptyR =>
    simp only [matchEnds] at h
    split at h
    · simp at h
      subst h
      exact MatchSpan.emptyR (by assumption)
    · simp at h
  | ch c =>
    simp only [matchEnds] at h
    split at h
    · rename_i c' hc'
      split at h
      · simp at h
        subst h
        rename_i hcc
        subst hcc
        exact MatchSpan.ch hc'
      · simp at h
    · simp at h
  | anyCh =>
    simp only [matchEnds] at h
    split at h
    · rename_i c' hc'
      simp at h
      subst h
      exact MatchSpan.anyCh hc'
    · simp at h
  | cat r1 r2 ih1 ih2 =>
    simp only [matchEnds, List.mem_flatMap] at h
    obtain ⟨k, hk, hj⟩ := h
    exact MatchSpan.cat (ih1 hk) (ih2 hj)
  | alt r1 r2 ih1 ih2 =>
    simp only [matchEnds, List.mem_append] at h
    cases h with
    | inl h => exact MatchSpan.altL (ih1 h)
    | inr h => exact MatchSpan.altR (ih2 h)
  | bol =>
    simp only [matchEnds] at h
    split at h
    · simp at h
      rename_i hi
      subst hi
      subst h
      exact MatchSpan.bol
    · simp at h
  | eol =>
    simp only [matchEnds] at h
    split at h
    · simp at h
      rename_i hi
      subst hi
      subst h
      exact MatchSpan.eol
    · simp at h

theorem matchEnds_complete {r : Regex} {s : List Char} {i j : Nat}
    (h : MatchSpan r s i j) : j ∈ matchEnds r s i := by
  induction h with
  | emptyR h => simp [matchEnds, h]
  | ch h =>
    rw [List.get?_eq_getElem?] at h
    simp [matchEnds, h]
  | anyCh h =>
    rw [List.get?_eq_getElem?] at h
    simp [matchEnds, h]
  | cat h1 h2 ih1 ih2 =>
    simp only [matchEnds, List.mem_flatMap]
    exact ⟨_, ih1, ih2⟩
  | altL h ih => simp only [matchEnds, List.mem_append]; exact Or.inl ih
  | altR h ih => simp only [matchEnds, List.mem_append]; exact Or.inr ih
  | bol => simp [matchEnds]
  | eol => simp [matchEnds]

/-- Any valid match span lies within the string. -/
theorem MatchSpan.bounds {r : Regex} {s : List Char} {i j : Nat}
    (h : MatchSpan r s i j) : i ≤ j ∧ j ≤ s.length := by
  induction h with
  | emptyR h => exact ⟨Nat.le_refl _, h⟩
  | ch h =>
    exact ⟨Nat.le_succ _, (List.get?_eq_some.mp h).1⟩
  | anyCh h =>
    exact ⟨Nat.le_succ _, (List.get?_eq_some.mp h).1⟩
  | cat h1 h2 ih1 ih2 => exact ⟨Nat.le_trans ih1.1 ih2.1, ih2.2⟩
  | altL h ih => exact ih
  | altR h ih => exact ih
  | bol => exact ⟨Nat.le_refl _, Nat.zero_le _⟩
  | eol => exact ⟨Nat.le_refl _, Nat.le_refl _⟩

/-- The operational unanchored search agrees with the declarative
"finds a match anywhere within the string". -/
theorem regexSearch_iff (r : Regex) (s : List Char) :
    regexSearch r s = true ↔ FindsMatchIn r s := by
  constructor
  · intro h
    simp only [regexSearch, List.any_eq_true, List.mem_range] at h
    obtain ⟨i, _, hne⟩ := h
    rw [Bool.not_eq_eq_eq_not, Bool.not_true, List.isEmpty_eq_false_iff_exists_mem] at hne
    obtain ⟨j, hj⟩ := hne
    exact ⟨i, j, matchEnds_sound hj⟩
  · rintro ⟨i, j, hm⟩
    simp only [regexSearch, List.any_eq_true, List.mem_range]
    refine ⟨i, ?_, ?_⟩
    · have := hm.bounds
      omega
    · rw [Bool.not_eq_eq_eq_not, Bool.not_true, List.isEmpty_eq_false_iff_exists_mem]
      exact ⟨j, matchEnds_complete hm⟩

/-- Characters the model's pattern compiler does not support; a pattern
containing one of them (outside the leading `^` / trailing `$` anchors)
is treated as uncompilable, standing in for both genuinely invalid Go
patterns (such as `"(["`) and constructs outside the model. -/
def metaChars : List Char :=
  ['\\', '(', ')', '[', ']', '\x7b', '\x7d', '*', '+', '?', '|', '^']

/-- Modelled from the spec: compile the body of a pattern (everything
after an optional leading `^`) into a `Regex`. -/
def compileChars : List Char → Option Regex
  | [] => some .emptyR
  | c :: rest =>
    if c = '$' then
      if rest.isEmpty then some .eol else none
    else if c ∈ metaChars then none
    else
      (compileChars rest).map (fun r =>
        .cat (if c = '.' then .anyCh else .ch c) r)

/-- Modelled from the spec: the pattern compiler standing in for Go's
`regexp.Compile`; `none` models a compilation error. -/
def compilePattern (p : String) : Option Regex :=
  match p.data with
  | '^' :: rest => (compileChars rest).map (fun r => .cat .bol r)
  | cs => compileChars cs

/-- Modelled from the spec: a compiled `FilterSet` is either a strict
(exact-equality) pattern list or a list of compiled regular
expressions. -/
inductive FilterSet where
  | strict (patterns : List String)
  | regexp (res : List Regex)
deriving DecidableEq

/-- Modelled from the spec: `FilterSet.Matches` — STRICT is
set-membership (byte-for-byte equality with some pattern); REGEXP is
true iff some compiled pattern finds a match anywhere in the value. -/
def FilterSet.Matches : FilterSet → String → Bool
  | .strict ps, v => ps.contains v
  | .regexp rs, v => rs.any (fun r => regexSearch r v.data)

/-- The matching strategy of a `MatchConfig`. -/
inductive MatchType where
  | strict
  | regexp
deriving DecidableEq

/-- Modelled from the spec: the configuration selecting the matching
strategy for every filter built from one `MatchProperties`. -/
structure MatchConfig where
  matchType : MatchType
deriving DecidableEq

/-- Compile every pattern of a list, failing on the first invalid one
(all-or-nothing, as `CreateFilterSet` requires). -/
def compileAll : List String → Except String (List Regex)
  | [] => .ok []
  | p :: rest =>
    match compilePattern p with
    | none => .error ("error parsing regexp " ++ p)
    | some r =>
      match compileAll rest with
      | .error e => .error e
      | .ok rs => .ok (r :: rs)

/-- Modelled from the spec: `filterset.CreateFilterSet` — under STRICT
the patterns are stored verbatim; under REGEXP each pattern is compiled,
and any compilation failure aborts construction. -/
def CreateFilterSet (patterns : List String) (cfg : MatchConfig) :
    Except String FilterSet :=
  match cfg.matchType with
  | .strict => .ok (.strict patterns)
  | .regexp =>
    match compileAll patterns with
    | .error e => .error e
    | .ok rs => .ok (.regexp rs)

/-- The tagged values held by telemetry attribute maps (`pcommon`
values restricted to the shapes the matcher compares). -/
inductive AnyValue where
  | str (s : String)
  | intV (i : Int)
  | boolV (b : Bool)
deriving DecidableEq, Repr

/-- An attribute map: string keys to tagged values. -/
abbrev AttrMap := List (String × AnyValue)

/-- First-match lookup in an attribute map. -/
def lookupAttr : AttrMap → String → Option AnyValue
  | [], _ => none
  | (k, v) :: rest, key => if k = key then some v else lookupAttr rest key

/-- Modelled from the spec: the per-key test of one attribute
constraint — presence only, equality with a tagged value, or a regular
expression over string values. -/
inductive ValueTest where
  | keyPresent
  | equalsV (v : AnyValue)
  | reMatch (r : Regex)
deriving DecidableEq

/-- Evaluate a `ValueTest` against a value found in the map. -/
def testValue : ValueTest → AnyValue → Bool
  | .keyPresent, _ => true
  | .equalsV w, v => v = w
  | .reMatch r, v =>
    match v with
    | .str s => regexSearch r s.data
    | _ => false

/-- One compiled attribute constraint: a key and its test. -/
structure AttributeConstraint where
  key : String
  test : ValueTest
deriving DecidableEq

/-- Modelled from the spec: an `AttributesMatcher` is a collection of
attribute constraints, conjunctively interpreted. -/
structure AttributesMatcher where
  constraints : List AttributeConstraint
deriving DecidableEq

/-- Modelled from the spec: `AttributesMatcher.Match` — logical AND
across all constraints; a constraint whose key is absent from the map
fails. -/
def AttributesMatcher.Match (m : AttributesMatcher) (attrs : AttrMap) : Bool :=
  m.constraints.all (fun c =>
    match lookupAttr attrs c.key with
    | none => false
    | some v => testValue c.test v)

/-- A configured attribute constraint before compilation: a key and an
optional value (absent value = presence test). -/
structure AttributeCfg where
  key : String
  value : Option AnyValue
deriving DecidableEq

/-- Compile a list of configured attribute constraints under a
strategy; a string value under REGEXP is compiled and may fail. -/
def buildConstraints (cfg : MatchConfig) :
    List AttributeCfg → Except String (List AttributeConstraint)
  | [] => .ok []
  | c :: rest =>
    match (match c.value with
           | none => Except.ok ValueTest.keyPresent
           | some (.str s) =>
             match cfg.matchType with
             | .regexp =>
               match compilePattern s with
               | none => Except.error ("error parsing regexp " ++ s)
               | some r => Except.ok (ValueTest.reMatch r)
             | .strict => Except.ok (ValueTest.equalsV (.str s))
           | some v => Except.ok (ValueTest.equalsV v)) with
    | .error e => .error e
    | .ok t =>
      match buildConstraints cfg rest with
      | .error e => .error e
      | .ok ts => .ok (⟨c.key, t⟩ :: ts)

/-- Modelled from the spec: `NewAttributesMatcher` — builds the
conjunctive attributes matcher, propagating any pattern-compilation
error. -/
def NewAttributesMatcher (cfg : MatchConfig) (cs : List AttributeCfg) :
    Except String AttributesMatcher :=
  match buildConstraints cfg cs with
  | .error e => .error e
  | .ok ts => .ok ⟨ts⟩

/-- From the source: `instrumentationLibraryMatcher` pairs a name
`FilterSet` with an optional version `FilterSet`. -/
structure instrumentationLibraryMatcher where
  Name : FilterSet
  Version : Option FilterSet
deriving DecidableEq

/-- From the source: `PropertiesMatcher` — compiled library matchers
plus optional attributes and resources matchers (`none` models the Go
nil slices left when no constraints were configured). -/
structure PropertiesMatcher where
  libraries : List instrumentationLibraryMatcher
  attributes : Option AttributesMatcher
  resources : Option AttributesMatcher
deriving DecidableEq

/-- A configured library constraint (`filterconfig`): a name pattern
and an optional version pattern (`none` models the Go nil pointer). -/
structure InstrumentationLibrary where
  Name : String
  Version : Option String
deriving DecidableEq

/-- The declarative `MatchProperties` configuration `NewMatcher`
consumes. -/
structure MatchProperties where
  Config : MatchConfig
  Libraries : List InstrumentationLibrary
  Attributes : List AttributeCfg
  Resources : List AttributeCfg
deriving DecidableEq

/-- From the source: the library-constraint compilation loop of
`NewMatcher`, wrapping name errors and version errors with their field
context and aborting on the first failure. -/
def buildLibraryMatchers (cfg : MatchConfig) :
    List InstrumentationLibrary →
    Except String (List instrumentationLibraryMatcher)
  | [] => .ok []
  | library :: rest =>
    match CreateFilterSet [library.Name] cfg with
    | .error e => .error ("error creating library name filters: " ++ e)
    | .ok name =>
      match library.Version with
      | none =>
        match buildLibraryMatchers cfg rest with
        | .error e => .error e
        | .ok lm => .ok (⟨name, none⟩ :: lm)
      | some v =>
        match CreateFilterSet [v] cfg with
        | .error e => .error ("error creating library version filters: " ++ e)
        | .ok f =>
          match buildLibraryMatchers cfg rest with
          | .error e => .error e
          | .ok lm => .ok (⟨name, some f⟩ :: lm)

/-- From the source: the optional attributes/resources matcher
construction of `NewMatcher` — built only when the constraint list is
non-empty, wrapping errors with the given field context. -/
def buildOptMatcher (cfg : MatchConfig) (cs : List AttributeCfg)
    (context : String) : Except String (Option AttributesMatcher) :=
  if cs.length > 0 then
    match NewAttributesMatcher cfg cs with
    | .error e => .error (context ++ e)
    | .ok m => .ok (some m)
  else
    .ok none

/-- From the source: `NewMatcher` — compiles library, attribute and
resource constraints in that order, aborting with a field-identifying
error on the first failure. -/
def NewMatcher (mp : MatchProperties) : Except String PropertiesMatcher :=
  match buildLibraryMatchers mp.Config mp.Libraries with
  | .error e => .error e
  | .ok lm =>
    match buildOptMatcher mp.Config mp.Attributes
        "error creating attribute filters: " with
    | .error e => .error e
    | .ok am =>
      match buildOptMatcher mp.Config mp.Resources
          "error creating resource filters: " with
      | .error e => .error e
      | .ok rm => .ok ⟨lm, am, rm⟩

/-- The instrumentation scope identity of a record (`pcommon`). -/
structure InstrumentationScope where
  Name : String
  Version : String
deriving DecidableEq

/-- The resource of a record (`pcommon`): its attribute map. -/
structure Resource where
  Attributes : AttrMap
deriving DecidableEq

/-- From the source: the library loop of `Match` — each constraint's
name must accept the scope name, and its version filter, when
configured, must accept the scope version; the first failure returns
false with no further constraints evaluated. -/
def checkLibraries :
    List instrumentationLibraryMatcher → InstrumentationScope → Bool
  | [], _ => true
  | matcher :: rest, library =>
    if !(matcher.Name.Matches library.Name) then false
    else
      match matcher.Version with
      | some v =>
        if !(v.Matches library.Version) then false
        else checkLibraries rest library
      | none => checkLibraries rest library

/-- The final `mp.attributes.Match(attributes)` call of the source: a
Go nil `AttributesMatcher` ranges over no constraints and returns true. -/
def optAttrsMatch : Option AttributesMatcher → AttrMap → Bool
  | none, _ => true
  | some m, attrs => m.Match attrs

/-- From the source: `PropertiesMatcher.Match` — library constraints
gate first, then the resource matcher when configured, and the
attributes matcher's verdict is returned unconditionally last. -/
def PropertiesMatcher.Match (mp : PropertiesMatcher) (attributes : AttrMap)
    (resource : Resource) (library : InstrumentationScope) : Bool :=
  if !(checkLibraries mp.libraries library) then false
  else if (match mp.resources with
           | some rm => !(rm.Match resource.Attributes)
           | none => false) then false
  else optAttrsMatch mp.attributes attributes

/-! ### Spec-side formulas and auxiliary predicates -/

/-- The spec's per-constraint acceptance formula: the scope name passes
the constraint's name filter, and its version passes the version filter
when one is configured. -/
def libraryAccepts (m : instrumentationLibraryMatcher)
    (s : InstrumentationScope) : Bool :=
  m.Name.Matches s.Name &&
    (match m.Version with
     | some v => v.Matches s.Version
     | none => true)

/-- The spec's resource gate: the resource matcher accepts the resource
attributes, vacuously true when no resource matcher is configured. -/
def resourcesAccept (mp : PropertiesMatcher) (r : Resource) : Bool :=
  match mp.resources with
  | some rm => rm.Match r.Attributes
  | none => true

/-- Whether an `Except` is in its error case. -/
def isErr {ε α : Type} : Except ε α → Bool
  | .error _ => true
  | .ok _ => false

/-- The spec-side characterisation of a failing construction: some
configured pattern of the `MatchProperties` fails to compile (a library
name, a library version, an attribute constraint, or a resource
constraint). -/
def anyCompileFails (mp : MatchProperties) : Bool :=
  mp.Libraries.any (fun lib =>
    isErr (CreateFilterSet [lib.Name] mp.Config) ||
      (match lib.Version with
       | some v => isErr (CreateFilterSet [v] mp.Config)
       | none => false)) ||
  (mp.Attributes.length > 0 && isErr (NewAttributesMatcher mp.Config mp.Attributes)) ||
  (mp.Resources.length > 0 && isErr (NewAttributesMatcher mp.Config mp.Resources))

/-! ### A state-passing model of `Match` for the frame property -/

/-- The full state visible to one `Match` call: the matcher's compiled
state and the borrowed telemetry record pieces. -/
structure MatchCall where
  matcher : PropertiesMatcher
  attributes : AttrMap
  resource : Resource
  scope : InstrumentationScope
deriving DecidableEq

/-- The library loop of `Match` in explicit state-passing style: every
operation the source performs (`library.Name()`, `library.Version()`,
`Matches`) is a read returning the state it was given. -/
def checkLibrariesSt :
    List instrumentationLibraryMatcher → MatchCall → Bool × MatchCall
  | [], st => (true, st)
  | matcher :: rest, st =>
    let (nm, st1) := (st.scope.Name, st)
    if !(matcher.Name.Matches nm) then (false, st1)
    else
      match matcher.Version with
      | some v =>
        let (vs, st2) := (st1.scope.Version, st1)
        if !(v.Matches vs) then (false, st2)
        else checkLibrariesSt rest st2
      | none => checkLibrariesSt rest st1

/-- `Match` in explicit state-passing style: the library loop, the
resource read and test, and the final attributes verdict, each
threading the call state. -/
def matchSt (st : MatchCall) : Bool × MatchCall :=
  let (bl, st1) := checkLibrariesSt st.matcher.libraries st
  if !bl then (false, st1)
  else
    match st1.matcher.resources with
    | some rm =>
      let (rattrs, st2) := (st1.resource.Attributes, st1)
      if !(rm.Match rattrs) then (false, st2)
      else (optAttrsMatch st2.matcher.attributes st2.attributes, st2)
    | none => (optAttrsMatch st1.matcher.attributes st1.attributes, st1)

/-! ### The OTTL `IsMatch` function -/

/-- The dynamic value (`interface\x7b\x7d`) a `Getter` can produce: Go
`nil`, a string, a bool, or some other non-string value. -/
inductive GoVal where
  | goNil
  | goStr (s : String)
  | goBool (b : Bool)
  | goOther
deriving DecidableEq, Repr

/-- From the source: `IsMatch` — compiles the pattern eagerly, failing
with an error when it is invalid, and otherwise returns the expression
function that propagates `target.Get` errors, evaluates the pattern on
string values, and yields false for nil or non-string values. -/
def IsMatch {K E : Type} (target : K → Except E GoVal) (pattern : String) :
    Except String (K → Except E GoVal) :=
  match compilePattern pattern with
  | none => .error "the pattern supplied to IsMatch is not a valid regexp pattern"
  | some compiled =>
    .ok (fun ctx =>
      match target ctx with
      | .error e => .error e
      | .ok val =>
        match val with
        | .goStr s => .ok (.goBool (regexSearch compiled s.data))
        | _ => .ok (.goBool false))

/-! ### Concrete fixtures used by the witnesses and examples -/

/-- The strict-strategy configuration. -/
def strictCfg : MatchConfig := ⟨.strict⟩

/-- The regexp-strategy configuration. -/
def regexpCfg : MatchConfig := ⟨.regexp⟩

/-- The spec's resource-gate example: resource `host.name` must equal
`"guarana"`, attribute `http.status` must be present. -/
def guaranaSpec : MatchProperties :=
  ⟨strictCfg, [], [⟨"http.status", none⟩], [⟨"host.name", some (.str "guarana")⟩]⟩

/-- The compiled matcher `NewMatcher` produces for `guaranaSpec`. -/
def guaranaMatcher : PropertiesMatcher :=
  ⟨[], some ⟨[⟨"http.status", .keyPresent⟩]⟩,
    some ⟨[⟨"host.name", .equalsV (.str "guarana")⟩]⟩⟩

/-- The spec's library example: one constraint `{name: "lib-a"}`, no
version. -/
def libASpec : MatchProperties :=
  ⟨strictCfg, [⟨"lib-a", none⟩], [], []⟩

/-- The compiled matcher `NewMatcher` produces for `libASpec`. -/
def libAMatcher : PropertiesMatcher :=
  ⟨[⟨.strict ["lib-a"], none⟩], none, none⟩

/-- A library constraint whose version field is present but holds the
empty string. -/
def emptyVerSpec : MatchProperties :=
  ⟨strictCfg, [⟨"lib-a", some ""⟩], [], []⟩

/-- The compiled matcher `NewMatcher` produces for `emptyVerSpec`: the
empty-string version was compiled into a real version filter. -/
def emptyVerMatcher : PropertiesMatcher :=
  ⟨[⟨.strict ["lib-a"], some (.strict [""])⟩], none, none⟩

/-- The compiled form of the pattern `"^abc"`. -/
def caretAbc : Regex :=
  .cat .bol (.cat (.ch 'a') (.cat (.ch 'b') (.cat (.ch 'c') .emptyR)))

/-- The compiled form of the pattern `"abc"`. -/
def abcRe : Regex :=
  .cat (.ch 'a') (.cat (.ch 'b') (.cat (.ch 'c') .emptyR))

/-- A concrete `Getter` exercising every result shape of `IsMatch`:
an error, a string containing `abc`, a nil, and a non-string value. -/
def c10target : Nat → Except String GoVal := fun n =>
  if n = 0 then .error "boom"
  else if n = 1 then .ok (.goStr "zabcz")
  else if n = 2 then .ok .goNil
  else .ok .goOther

/-- The expression function `IsMatch c10target "abc"` returns. -/
def c10fun : Nat → Except String GoVal := fun ctx =>
  match c10target ctx with
  | .error e => .error e
  | .ok val =>
    match val with
    | .goStr s => .ok (.goBool (regexSearch abcRe s.data))
    | _ => .ok (.goBool false)

/-! ### Helper lemmas -/

/-- The sequential library loop computes the conjunction of the
per-constraint acceptance formula. -/
theorem checkLibraries_eq_all (ls : List instrumentationLibraryMatcher)
    (s : InstrumentationScope) :
    checkLibraries ls s = ls.all (fun m => libraryAccepts m s) := by
  induction ls with
  | nil => rfl
  | cons m rest ih =>
    simp only [checkLibraries, List.all_cons, libraryAccepts]
    cases hn : m.Name.Matches s.Name with
    | false => simp
    | true =>
      simp only [Bool.not_true, Bool.false_eq_true, if_false, Bool.true_and]
      cases hv : m.Version with
      | none => simpa using ih
      | some v =>
        cases hm : v.Matches s.Version with
        | false => simp [hm]
        | true => simp [hm, ih, libraryAccepts]

/-! ### Claims -/

/-- C1: `Match` returns true iff every configured library constraint
accepts the scope, the resource matcher (when configured) accepts the
resource attributes, and the attributes matcher's verdict — true when
absent — is returned unconditionally as the final value. -/
theorem match_eq_conjunction (mp : PropertiesMatcher) (a : AttrMap)
    (r : Resource) (s : InstrumentationScope) :
    mp.Match a r s =
      (mp.libraries.all (fun m => libraryAccepts m s) &&
        resourcesAccept mp r &&
        optAttrsMatch mp.attributes a) := by
  rw [PropertiesMatcher.Match, checkLibraries_eq_all]
  cases hl : mp.libraries.all (fun m => libraryAccepts m s) with
  | false => simp
  | true =>
    simp only [Bool.not_true, Bool.false_eq_true, if_false, Bool.true_and]
    cases hres : mp.resources with
    | none => simp [resourcesAccept, hres]
    | some rm =>
      cases hr : rm.Match r.Attributes with
      | false => simp [resourcesAccept, hres, hr]
      | true => simp [resourcesAccept, hres, hr]

/-- C2: a `PropertiesMatcher` built from a MatchSpec with no library,
attribute or resource constraints is returned without error and matches
every input, including empty maps and an empty scope. -/
theorem emptySpec_matches_all (cfg : MatchConfig) (a : AttrMap)
    (r : Resource) (s : InstrumentationScope) :
    NewMatcher ⟨cfg, [], [], []⟩ = .ok ⟨[], none, none⟩ ∧
    PropertiesMatcher.Match ⟨[], none, none⟩ a r s = true :=
  ⟨rfl, rfl⟩

/-- C3: with both a resource constraint (`host.name == "guarana"`) and
an attribute constraint (`http.status` present) configured, any record
whose resource attributes fail the resource constraint is rejected,
whatever its own attribute map contains: the resource gate returns
false before the attributes matcher is consulted. -/
theorem resource_gate_rejects (a : AttrMap) (r : Resource)
    (s : InstrumentationScope)
    (h : lookupAttr r.Attributes "host.name" ≠ some (.str "guarana")) :
    NewMatcher guaranaSpec = .ok guaranaMatcher ∧
    guaranaMatcher.Match a r s = false := by
  refine ⟨rfl, ?_⟩
  have hrm : AttributesMatcher.Match ⟨[⟨"host.name", .equalsV (.str "guarana")⟩]⟩
      r.Attributes = false := by
    simp only [AttributesMatcher.Match, List.all_cons, List.all_nil, Bool.and_true]
    cases hlk : lookupAttr r.Attributes "host.name" with
    | none => rfl
    | some v =>
      simp only [testValue]
      rw [decide_eq_false]
      intro hv
      exact h (by rw [hlk, hv])
  simp [PropertiesMatcher.Match, guaranaMatcher, checkLibraries, hrm]

/-- C3 witness: a record whose resource map lacks `host.name` is
rejected even though its attributes contain `http.status`. -/
theorem resource_gate_rejects_witness :
    lookupAttr (Resource.mk []).Attributes "host.name" ≠
      some (.str "guarana") ∧
    guaranaMatcher.Match [("http.status", .intV 404)] ⟨[]⟩ ⟨"", ""⟩ = false :=
  ⟨by decide,
   (resource_gate_rejects [("http.status", .intV 404)] ⟨[]⟩ ⟨"", ""⟩
     (by decide)).2⟩

/-- C4: library constraints are checked in order and fail immediately
when the scope name fails a constraint's name filter; the version
filter is applied only when configured.  The matcher built from the
single constraint `{name: "lib-a"}` (no version) accepts scope name
`"lib-a"` under any version and rejects scope name `"lib-b"`. -/
theorem library_constraints_in_order :
    (∀ (m : instrumentationLibraryMatcher)
       (rest : List instrumentationLibraryMatcher)
       (s : InstrumentationScope),
       m.Name.Matches s.Name = false → checkLibraries (m :: rest) s = false) ∧
    (∀ (m : instrumentationLibraryMatcher)
       (rest : List instrumentationLibraryMatcher)
       (s : InstrumentationScope),
       m.Version = none → m.Name.Matches s.Name = true →
       checkLibraries (m :: rest) s = checkLibraries rest s) ∧
    NewMatcher libASpec = .ok libAMatcher ∧
    (∀ (a : AttrMap) (r : Resource) (ver : String),
       libAMatcher.Match a r ⟨"lib-a", ver⟩ = true) ∧
    (∀ (a : AttrMap) (r : Resource) (ver : String),
       libAMatcher.Match a r ⟨"lib-b", ver⟩ = false) := by
  refine ⟨?_, ?_, rfl, ?_, ?_⟩
  · intro m rest s h
    simp [checkLibraries, h]
  · intro m rest s hv h
    simp [checkLibraries, h, hv]
  · intro a r ver
    rfl
  · intro a r ver
    rfl

/-- C4 witness: the short-circuit conjunct applied at a concrete
failing constraint. -/
theorem library_constraints_in_order_witness :
    checkLibraries [⟨.strict ["x"], none⟩] ⟨"y", ""⟩ = false :=
  library_constraints_in_order.1 ⟨.strict ["x"], none⟩ [] ⟨"y", ""⟩ (by decide)

/-- Passing an `Except` through the identity-on-errors match used by
the construction code preserves its error status. -/
theorem isErr_map {ε α β : Type} (x : Except ε α) (g : α → β) :
    isErr (match x with
           | .error e => (.error e : Except ε β)
           | .ok y => .ok (g y)) = isErr x := by
  cases x <;> rfl

/-- The library-compilation loop errs exactly when some library's name
or configured version pattern fails to compile. -/
theorem buildLibraryMatchers_isErr (cfg : MatchConfig)
    (libs : List InstrumentationLibrary) :
    isErr (buildLibraryMatchers cfg libs) =
      libs.any (fun lib =>
        isErr (CreateFilterSet [lib.Name] cfg) ||
          (match lib.Version with
           | some v => isErr (CreateFilterSet [v] cfg)
           | none => false)) := by
  induction libs with
  | nil => rfl
  | cons lib rest ih =>
    simp only [buildLibraryMatchers, List.any_cons]
    cases hn : CreateFilterSet [lib.Name] cfg with
    | error e => simp_all [isErr]
    | ok name =>
      cases hv : lib.Version with
      | none =>
        cases hr : buildLibraryMatchers cfg rest <;> simp_all [isErr]
      | some v =>
        cases hcv : CreateFilterSet [v] cfg with
        | error e2 => simp_all [isErr]
        | ok f =>
          cases hr : buildLibraryMatchers cfg rest <;> simp_all [isErr]

/-- The optional attributes/resources construction errs exactly when
the constraint list is non-empty and `NewAttributesMatcher` fails. -/
theorem buildOptMatcher_isErr (cfg : MatchConfig) (cs : List AttributeCfg)
    (context : String) :
    isErr (buildOptMatcher cfg cs context) =
      (decide (cs.length > 0) && isErr (NewAttributesMatcher cfg cs)) := by
  unfold buildOptMatcher
  split
  · rename_i hpos
    cases hna : NewAttributesMatcher cfg cs <;> simp [isErr, hpos]
  · rename_i hneg
    simp [isErr, hneg]

/-- When the library-compilation loop errs, the message wraps a library
name or library version compilation error of one of the configured
libraries with its field context. -/
theorem buildLibraryMatchers_error_shape (cfg : MatchConfig)
    (libs : List InstrumentationLibrary) (e : String)
    (h : buildLibraryMatchers cfg libs = .error e) :
    ∃ cause,
      (∃ lib, lib ∈ libs ∧ CreateFilterSet [lib.Name] cfg = .error cause ∧
         e = "error creating library name filters: " ++ cause) ∨
      (∃ lib v, lib ∈ libs ∧ lib.Version = some v ∧
         CreateFilterSet [v] cfg = .error cause ∧
         e = "error creating library version filters: " ++ cause) := by
  induction libs with
  | nil => exact absurd h (by simp [buildLibraryMatchers])
  | cons lib rest ih =>
    simp only [buildLibraryMatchers] at h
    cases hn : CreateFilterSet [lib.Name] cfg with
    | error e1 =>
      rw [hn] at h
      simp only [Except.error.injEq] at h
      exact ⟨e1, Or.inl ⟨lib, List.mem_cons_self lib rest, hn, h.symm⟩⟩
    | ok name =>
      rw [hn] at h
      simp only [] at h
      cases hv : lib.Version with
      | none =>
        rw [hv] at h
        simp only [] at h
        cases hr : buildLibraryMatchers cfg rest with
        | error e2 =>
          rw [hr] at h
          simp only [Except.error.injEq] at h
          subst h
          obtain ⟨cause, hc⟩ := ih hr
          refine ⟨cause, ?_⟩
          rcases hc with ⟨l, hl, hcf, he⟩ | ⟨l, v, hl, hlv, hcf, he⟩
          · exact Or.inl ⟨l, List.mem_cons_of_mem _ hl, hcf, he⟩
          · exact Or.inr ⟨l, v, List.mem_cons_of_mem _ hl, hlv, hcf, he⟩
        | ok lm =>
          rw [hr] at h
          exact absurd h (by simp)
      | some v =>
        rw [hv] at h
        simp only [] at h
        cases hcv : CreateFilterSet [v] cfg with
        | error e2 =>
          rw [hcv] at h
          simp only [Except.error.injEq] at h
          exact ⟨e2, Or.inr ⟨lib, v, List.mem_cons_self lib rest, hv, hcv, h.symm⟩⟩
        | ok f =>
          rw [hcv] at h
          simp only [] at h
          cases hr : buildLibraryMatchers cfg rest with
          | error e2 =>
            rw [hr] at h
            simp only [Except.error.injEq] at h
            subst h
            obtain ⟨cause, hc⟩ := ih hr
            refine ⟨cause, ?_⟩
            rcases hc with ⟨l, hl, hcf, he⟩ | ⟨l, v', hl, hlv, hcf, he⟩
            · exact Or.inl ⟨l, List.mem_cons_of_mem _ hl, hcf, he⟩
            · exact Or.inr ⟨l, v', List.mem_cons_of_mem _ hl, hlv, hcf, he⟩
          | ok lm =>
            rw [hr] at h
            exact absurd h (by simp)

/-- When the optional attributes/resources construction errs, the
message wraps the `NewAttributesMatcher` error with the given field
context. -/
theorem buildOptMatcher_error_shape (cfg : MatchConfig)
    (cs : List AttributeCfg) (context e : String)
    (h : buildOptMatcher cfg cs context = .error e) :
    ∃ cause, NewAttributesMatcher cfg cs = .error cause ∧
      e = context ++ cause := by
  unfold buildOptMatcher at h
  split at h
  · cases hna : NewAttributesMatcher cfg cs with
    | error c =>
      rw [hna] at h
      simp only [Except.error.injEq] at h
      exact ⟨c, rfl, h.symm⟩
    | ok m => rw [hna] at h; exact absurd h (by simp)
  · exact absurd h (by simp)

/-- C5: `NewMatcher` fails exactly when some configured pattern fails
to compile, and every error it returns wraps the underlying cause with
a context naming the failing field (library name, library version,
attribute, or resource); the `Except` error case carries no matcher. -/
theorem newMatcher_fails_atomically (mp : MatchProperties) :
    isErr (NewMatcher mp) = anyCompileFails mp ∧
    (∀ e, NewMatcher mp = .error e → ∃ cause,
      (∃ lib, lib ∈ mp.Libraries ∧
         CreateFilterSet [lib.Name] mp.Config = .error cause ∧
         e = "error creating library name filters: " ++ cause) ∨
      (∃ lib v, lib ∈ mp.Libraries ∧ lib.Version = some v ∧
         CreateFilterSet [v] mp.Config = .error cause ∧
         e = "error creating library version filters: " ++ cause) ∨
      (NewAttributesMatcher mp.Config mp.Attributes = .error cause ∧
         e = "error creating attribute filters: " ++ cause) ∨
      (NewAttributesMatcher mp.Config mp.Resources = .error cause ∧
         e = "error creating resource filters: " ++ cause)) := by
  constructor
  · have hlib := buildLibraryMatchers_isErr mp.Config mp.Libraries
    have hatt := buildOptMatcher_isErr mp.Config mp.Attributes
      "error creating attribute filters: "
    have hres := buildOptMatcher_isErr mp.Config mp.Resources
      "error creating resource filters: "
    unfold NewMatcher anyCompileFails
    rw [← hlib, ← hatt, ← hres]
    cases buildLibraryMatchers mp.Config mp.Libraries <;>
      cases buildOptMatcher mp.Config mp.Attributes
        "error creating attribute filters: " <;>
      cases buildOptMatcher mp.Config mp.Resources
        "error creating resource filters: " <;>
      simp [isErr]
  · intro e h
    unfold NewMatcher at h
    cases hl : buildLibraryMatchers mp.Config mp.Libraries with
    | error e1 =>
      rw [hl] at h
      simp only [Except.error.injEq] at h
      subst h
      obtain ⟨cause, hc⟩ := buildLibraryMatchers_error_shape _ _ _ hl
      rcases hc with h1 | h2
      · exact ⟨cause, Or.inl h1⟩
      · exact ⟨cause, Or.inr (Or.inl h2)⟩
    | ok lm =>
      rw [hl] at h
      cases ha : buildOptMatcher mp.Config mp.Attributes
          "error creating attribute filters: " with
      | error e1 =>
        rw [ha] at h
        simp only [Except.error.injEq] at h
        subst h
        obtain ⟨cause, hna, he⟩ := buildOptMatcher_error_shape _ _ _ _ ha
        exact ⟨cause, Or.inr (Or.inr (Or.inl ⟨hna, he⟩))⟩
      | ok am =>
        rw [ha] at h
        cases hr : buildOptMatcher mp.Config mp.Resources
            "error creating resource filters: " with
        | error e1 =>
          rw [hr] at h
          simp only [Except.error.injEq] at h
          subst h
          obtain ⟨cause, hna, he⟩ := buildOptMatcher_error_shape _ _ _ _ hr
          exact ⟨cause, Or.inr (Or.inr (Or.inr ⟨hna, he⟩))⟩
        | ok rm => rw [hr] at h; exact absurd h (by simp)

/-- C5 witness: an invalid library-name pattern under REGEXP aborts
`NewMatcher` with the library-name field context wrapping the parse
error. -/
theorem newMatcher_fails_atomically_witness :
    ∃ cause,
      (∃ lib, lib ∈ (⟨regexpCfg, [⟨"([", none⟩], [], []⟩ :
           MatchProperties).Libraries ∧
         CreateFilterSet [lib.Name] regexpCfg = .error cause ∧
         "error creating library name filters: error parsing regexp ([" =
           "error creating library name filters: " ++ cause) ∨
      (∃ lib v, lib ∈ (⟨regexpCfg, [⟨"([", none⟩], [], []⟩ :
           MatchProperties).Libraries ∧ lib.Version = some v ∧
         CreateFilterSet [v] regexpCfg = .error cause ∧
         "error creating library name filters: error parsing regexp ([" =
           "error creating library version filters: " ++ cause) ∨
      (NewAttributesMatcher regexpCfg [] = .error cause ∧
         "error creating library name filters: error parsing regexp ([" =
           "error creating attribute filters: " ++ cause) ∨
      (NewAttributesMatcher regexpCfg [] = .error cause ∧
         "error creating library name filters: error parsing regexp ([" =
           "error creating resource filters: " ++ cause) :=
  (newMatcher_fails_atomically ⟨regexpCfg, [⟨"([", none⟩], [], []⟩).2
    "error creating library name filters: error parsing regexp ([" rfl

/-- C6: for every matcher successfully returned by `NewMatcher`,
`Match` is total — it returns one of the two booleans with no error
channel — and when no attribute constraints were configured the
attributes matcher is absent (nil) yet is still evaluated as the final
step, yielding true once the library and resource gates pass. -/
theorem match_is_total (spec : MatchProperties) (mp : PropertiesMatcher)
    (a : AttrMap) (r : Resource) (s : InstrumentationScope)
    (h : NewMatcher spec = .ok mp) :
    (mp.Match a r s = true ∨ mp.Match a r s = false) ∧
    (spec.Attributes = [] → mp.attributes = none) ∧
    (spec.Attributes = [] → checkLibraries mp.libraries s = true →
      resourcesAccept mp r = true → mp.Match a r s = true) := by
  have hattr : spec.Attributes = [] → mp.attributes = none := by
    intro hA
    unfold NewMatcher at h
    cases hl : buildLibraryMatchers spec.Config spec.Libraries with
    | error e => rw [hl] at h; simp at h
    | ok lm =>
      rw [hl] at h
      simp only [] at h
      cases ha : buildOptMatcher spec.Config spec.Attributes
          "error creating attribute filters: " with
      | error e => rw [ha] at h; simp at h
      | ok am =>
        rw [ha] at h
        simp only [] at h
        cases hr : buildOptMatcher spec.Config spec.Resources
            "error creating resource filters: " with
        | error e => rw [hr] at h; simp at h
        | ok rm =>
          rw [hr] at h
          simp only [Except.ok.injEq] at h
          rw [hA] at ha
          simp only [buildOptMatcher, List.length_nil, gt_iff_lt,
            Nat.lt_irrefl, if_false, Except.ok.injEq] at ha
          rw [← h]
          exact ha.symm
  refine ⟨?_, hattr, ?_⟩
  · cases mp.Match a r s
    · exact Or.inr rfl
    · exact Or.inl rfl
  · intro hA hlib hres
    unfold PropertiesMatcher.Match
    rw [hlib, hattr hA]
    unfold resourcesAccept at hres
    cases hrs : mp.resources with
    | none => rfl
    | some rm =>
      rw [hrs] at hres
      simp only [] at hres
      simp [hres, optAttrsMatch]

/-- C6 witness: the empty spec's matcher evaluated at concrete empty
inputs. -/
theorem match_is_total_witness :
    (PropertiesMatcher.Match ⟨[], none, none⟩ [] ⟨[]⟩ ⟨"", ""⟩ = true ∨
     PropertiesMatcher.Match ⟨[], none, none⟩ [] ⟨[]⟩ ⟨"", ""⟩ = false) ∧
    ((⟨strictCfg, [], [], []⟩ : MatchProperties).Attributes = [] →
      (⟨[], none, none⟩ : PropertiesMatcher).attributes = none) ∧
    ((⟨strictCfg, [], [], []⟩ : MatchProperties).Attributes = [] →
      checkLibraries [] ⟨"", ""⟩ = true →
      resourcesAccept ⟨[], none, none⟩ ⟨[]⟩ = true →
      PropertiesMatcher.Match ⟨[], none, none⟩ [] ⟨[]⟩ ⟨"", ""⟩ = true) :=
  match_is_total ⟨strictCfg, [], [], []⟩ ⟨[], none, none⟩ [] ⟨[]⟩ ⟨"", ""⟩ rfl

/-- C7: under the REGEXP strategy a filter set matches a value iff some
compiled pattern finds a match anywhere within it (unanchored substring
search); the compiled pattern `"^abc"` accepts `"abcdef"` and rejects
`"xabc"`. -/
theorem regexp_filterset_semantics :
    (∀ (rs : List Regex) (v : String),
       (FilterSet.regexp rs).Matches v = true ↔
         ∃ r, r ∈ rs ∧ FindsMatchIn r v.data) ∧
    compilePattern "^abc" = some caretAbc ∧
    CreateFilterSet ["^abc"] regexpCfg = .ok (.regexp [caretAbc]) ∧
    (FilterSet.regexp [caretAbc]).Matches "abcdef" = true ∧
    (FilterSet.regexp [caretAbc]).Matches "xabc" = false := by
  refine ⟨?_, by decide, rfl, by decide, by decide⟩
  intro rs v
  simp only [FilterSet.Matches, List.any_eq_true]
  constructor
  · rintro ⟨r, hr, hs⟩
    exact ⟨r, hr, (regexSearch_iff r v.data).mp hs⟩
  · rintro ⟨r, hr, hs⟩
    exact ⟨r, hr, (regexSearch_iff r v.data).mpr hs⟩

/-- C8: `Match` run in explicit state-passing style — every operation
it performs modelled as a read threading the call state — returns the
state it was given unchanged (matcher, attribute map, resource and
scope all intact) along with exactly the verdict of `Match`. -/
theorem match_frame (st : MatchCall) :
    (matchSt st).2 = st ∧
    (matchSt st).1 = st.matcher.Match st.attributes st.resource st.scope := by
  have hlib : ∀ (ls : List instrumentationLibraryMatcher) (st' : MatchCall),
      checkLibrariesSt ls st' = (checkLibraries ls st'.scope, st') := by
    intro ls
    induction ls with
    | nil => intro st'; rfl
    | cons m rest ih =>
      intro st'
      simp only [checkLibrariesSt, checkLibraries]
      cases hn : m.Name.Matches st'.scope.Name with
      | false => simp
      | true =>
        simp only [Bool.not_true, Bool.false_eq_true, if_false]
        cases hv : m.Version with
        | none => exact ih st'
        | some v =>
          cases hm : v.Matches st'.scope.Version with
          | false => simp [hm]
          | true => simp [hm, ih st']
  unfold matchSt PropertiesMatcher.Match
  rw [hlib st.matcher.libraries st]
  cases hc : checkLibraries st.matcher.libraries st.scope with
  | false => exact ⟨rfl, rfl⟩
  | true =>
    simp only [Bool.not_true, Bool.false_eq_true, if_false]
    cases hrs : st.matcher.resources with
    | none => exact ⟨rfl, rfl⟩
    | some rm =>
      cases hr : rm.Match st.resource.Attributes with
      | false => simp [hr]
      | true => simp [hr]

/-- C9: a present-but-empty version pattern is compiled into a real
version filter (unlike an absent version): under STRICT the resulting
matcher accepts a `lib-a` record exactly when its scope version is the
empty string, while the version-less `lib-a` matcher accepts every
version. -/
theorem empty_version_is_compiled :
    NewMatcher emptyVerSpec = .ok emptyVerMatcher ∧
    (∀ (a : AttrMap) (r : Resource) (ver : String),
       emptyVerMatcher.Match a r ⟨"lib-a", ver⟩ = decide (ver = "")) ∧
    (∀ (a : AttrMap) (r : Resource),
       emptyVerMatcher.Match a r ⟨"lib-a", "1.0"⟩ = false) ∧
    (∀ (a : AttrMap) (r : Resource),
       emptyVerMatcher.Match a r ⟨"lib-a", ""⟩ = true) ∧
    (∀ (a : AttrMap) (r : Resource) (ver : String),
       libAMatcher.Match a r ⟨"lib-a", ver⟩ = true) := by
  refine ⟨rfl, ?_, ?_, ?_, fun a r ver => rfl⟩
  · intro a r ver
    by_cases hv : ver = ""
    · subst hv
      rfl
    · rw [decide_eq_false hv]
      simp [PropertiesMatcher.Match, emptyVerMatcher, checkLibraries,
        FilterSet.Matches, optAttrsMatch, hv]
  · intro a r
    rfl
  · intro a r
    rfl

/-- C10: `IsMatch` returns an error (and no function) iff its pattern
is not a valid regular expression; the returned function propagates
`target.Get` errors exactly, returns false (no error) for a nil or
non-string value, and otherwise returns whether the compiled pattern
finds a match within the string value. -/
theorem isMatch_semantics {K E : Type} (target : K → Except E GoVal)
    (pattern : String) :
    ((∃ f, IsMatch target pattern = .ok f) ↔
       (compilePattern pattern).isSome = true) ∧
    ((compilePattern pattern).isSome = false →
       IsMatch target pattern =
         .error "the pattern supplied to IsMatch is not a valid regexp pattern") ∧
    (∀ f (ctx : K), IsMatch target pattern = .ok f →
       (∀ e, target ctx = .error e → f ctx = .error e) ∧
       (target ctx = .ok .goNil → f ctx = .ok (.goBool false)) ∧
       (∀ b, target ctx = .ok (.goBool b) → f ctx = .ok (.goBool false)) ∧
       (target ctx = .ok .goOther → f ctx = .ok (.goBool false)) ∧
       (∀ s r, compilePattern pattern = some r →
          target ctx = .ok (.goStr s) →
          f ctx = .ok (.goBool (regexSearch r s.data)))) := by
  refine ⟨?_, ?_, ?_⟩
  · constructor
    · rintro ⟨f, hf⟩
      unfold IsMatch at hf
      cases hc : compilePattern pattern with
      | none => rw [hc] at hf; simp at hf
      | some r => simp
    · intro hs
      cases hc : compilePattern pattern with
      | none => rw [hc] at hs; simp at hs
      | some r =>
        exact ⟨fun ctx =>
          match target ctx with
          | .error e => .error e
          | .ok val =>
            match val with
            | .goStr s => .ok (.goBool (regexSearch r s.data))
            | _ => .ok (.goBool false),
          by simp [IsMatch, hc]⟩
  · intro hs
    cases hc : compilePattern pattern with
    | none => simp [IsMatch, hc]
    | some r => rw [hc] at hs; simp at hs
  · intro f ctx hf
    unfold IsMatch at hf
    cases hc : compilePattern pattern with
    | none => rw [hc] at hf; simp at hf
    | some r =>
      rw [hc] at hf
      simp only [Except.ok.injEq] at hf
      subst hf
      refine ⟨?_, ?_, ?_, ?_, ?_⟩
      · intro e he
        simp [he]
      · intro he
        simp [he]
      · intro b he
        simp [he]
      · intro he
        simp [he]
      · intro s r' hr' he
        simp only [Option.some.injEq] at hr'
        subst hr'
        simp [he]

/-- C10 witness: the invalid pattern `"(["` makes `IsMatch` err; on the
valid pattern `"abc"` the returned function propagates the getter's
error, searches string values, and yields false on nil values. -/
theorem isMatch_semantics_witness :
    IsMatch c10target "([" =
      .error "the pattern supplied to IsMatch is not a valid regexp pattern" ∧
    c10fun 0 = .error "boom" ∧
    c10fun 1 = .ok (.goBool (regexSearch abcRe "zabcz".data)) ∧
    c10fun 2 = .ok (.goBool false) :=
  have hok : IsMatch c10target "abc" = Except.ok c10fun := by
    have h1 : compilePattern "abc" = some abcRe := by decide
    simp only [IsMatch, h1]
    congr 1
    funext ctx
    unfold c10fun
    cases c10target ctx with
    | error e => rfl
    | ok val => cases val <;> rfl
  ⟨(isMatch_semantics c10target "([").2.1 (by decide),
   ((isMatch_semantics c10target "abc").2.2 c10fun 0 hok).1 "boom" rfl,
   ((isMatch_semantics c10target "abc").2.2 c10fun 1 hok).2.2.2.2 "zabcz"
     abcRe rfl rfl,
   ((isMatch_semantics c10target "abc").2.2 c10fun 2 hok).2.1 rfl⟩

end FilterMatcher
